import Mathlib

/-!
Verification of the TIFF reader core (`aicsimageio/readers/tiff_reader.py`):
format sniffing, image-description extraction, dimension and shape
resolution, property caching and lazy volume assembly, over a shallow
embedding of the Python source.  External collaborators (the tifffile
decoder, the dask lazy-array engine, numpy) and repository modules that are
not part of the sources under verification (`buffer_reader.py`,
`constants.py`) are modelled from the specification, as noted on each
definition.
-/

/-- Python-level failures the embedded code can produce.  `emptyContainer`
is the dedicated `EmptyContainerError` of the error taxonomy in section 7 of
the specification; the embedded source never produces it.  `outOfFuel`
stands for non-termination of an unbounded Python `while` loop. -/
inductive PyErr where
  | truncated
  | indexError
  | typeError
  | nameError (missing : String)
  | emptyContainer
  | outOfFuel
  deriving DecidableEq, Repr

/-- Little-endian recomposition of a byte list into a natural number. -/
def bytesToNatLE (bs : List Nat) : Nat :=
  bs.foldr (fun b acc => b % 256 + 256 * acc) 0

/-- Big-endian recomposition of a byte list into a natural number. -/
def bytesToNatBE (bs : List Nat) : Nat :=
  bs.foldl (fun acc b => acc * 256 + b % 256) 0

/-- The two little-endian bytes of a 16-bit value. -/
def u16LE (n : Nat) : List Nat := [n % 256, n / 256 % 256]

/-- The four little-endian bytes of a 32-bit value. -/
def u32LE (n : Nat) : List Nat :=
  [n % 256, n / 256 % 256, n / 65536 % 256, n / 16777216 % 256]

/-- Modelled from the spec: the ByteStreamCursor (`BufferReader` in
`aicsimageio/buffer_reader.py`, which is not among the sources under
verification).  Per section 4.1 of the specification it wraps a byte
source, fixes endianness at construction from the first two bytes read
(`II` is little-endian, `MM` is big-endian, anything else is an
invalid-format signal), exposes `read_uint16/32/64` honouring that
endianness, fails with `TruncatedInputError` when fewer bytes remain than
requested, and supports absolute `seek`. -/
structure Cursor where
  data : List Nat
  pos : Nat
  little : Bool
  deriving Repr

def Cursor.readBytes (c : Cursor) (k : Nat) : Except PyErr (List Nat × Cursor) :=
  let bs := (c.data.drop c.pos).take k
  if bs.length = k then .ok (bs, { c with pos := c.pos + k }) else .error .truncated

def Cursor.readUint (c : Cursor) (k : Nat) : Except PyErr (Nat × Cursor) :=
  match c.readBytes k with
  | .error e => .error e
  | .ok (bs, c1) => .ok (if c.little then bytesToNatLE bs else bytesToNatBE bs, c1)

def Cursor.readUint16 (c : Cursor) : Except PyErr (Nat × Cursor) := c.readUint 2

def Cursor.readUint32 (c : Cursor) : Except PyErr (Nat × Cursor) := c.readUint 4

def Cursor.readUint64 (c : Cursor) : Except PyErr (Nat × Cursor) := c.readUint 8

def Cursor.seek (c : Cursor) (off : Nat) : Cursor := { c with pos := off }

/-- Endianness detection from the first two bytes of the stream:
`II` = 0x49 0x49 (intel, little-endian), `MM` = 0x4D 0x4D (motorola,
big-endian); any other start, including a stream shorter than two bytes,
is the invalid-format signal and yields no cursor. -/
def openCursor (data : List Nat) : Option Cursor :=
  match data with
  | 73 :: 73 :: _ => some ⟨data, 2, true⟩
  | 77 :: 77 :: _ => some ⟨data, 2, false⟩
  | _ => none

/-- Embeds `TiffReader._is_this_type` (tiff_reader.py lines 60-91).  The
control flow follows the source exactly: an unrecognized endianness marker
returns `False`; magic 42 reads a 32-bit first-IFD offset and returns
`False` only when that offset is zero; magic 43 checks the two 16-bit
header fields (which must be 8 and 0) and a 64-bit first-IFD offset; any
other magic value falls through both `if` blocks to the final
`return True` at line 91. -/
def isThisType (data : List Nat) : Except PyErr Bool :=
  match openCursor data with
  | none => .ok false
  | some c =>
    match c.readUint16 with
    | .error e => .error e
    | .ok (magic, c1) =>
      if magic = 42 then
        match c1.readUint32 with
        | .error e => .error e
        | .ok (ifdOffset, _) => .ok (decide (ifdOffset ≠ 0))
      else if magic = 43 then
        match c1.readUint16 with
        | .error e => .error e
        | .ok (v8, c2) =>
          if v8 ≠ 8 then .ok false
          else
            match c2.readUint16 with
            | .error e => .error e
            | .ok (v0, c3) =>
              if v0 ≠ 0 then .ok false
              else
                match c3.readUint64 with
                | .error e => .error e
                | .ok (ifdOffset, _) => .ok (decide (ifdOffset ≠ 0))
      else .ok true

/-- Python `file.read(n)` after `seek(off)`: a negative `n` reads every
remaining byte to the end of the stream, otherwise at most `n` bytes are
returned (fewer when the stream ends first). -/
def pyRead (data : List Nat) (off : Nat) (len : Int) : List Nat :=
  if len < 0 then data.drop off else (data.drop off).take len.toNat

/-- One directory scan of `TiffReader.get_image_description`
(lines 311-320): read the given number of classic 12-byte entries
(tag u16, type u16, count u32, value-or-offset u32), stopping early at the
first tag 270 with `(count - 1, offset)`.  `count - 1` is Python integer
arithmetic, hence an `Int`. -/
def scanEntriesClassic (c : Cursor) : Nat → Except PyErr (Option (Int × Nat) × Cursor)
  | 0 => .ok (none, c)
  | n + 1 =>
    match c.readUint16 with
    | .error e => .error e
    | .ok (tag, c1) =>
      match c1.readUint16 with
      | .error e => .error e
      | .ok (_, c2) =>
        match c2.readUint32 with
        | .error e => .error e
        | .ok (count, c3) =>
          match c3.readUint32 with
          | .error e => .error e
          | .ok (off, c4) =>
            if tag = 270 then .ok (some ((count : Int) - 1, off), c4)
            else scanEntriesClassic c4 n

/-- The classic-TIFF IFD-chain loop of `get_image_description`
(lines 303-320): follow 32-bit next-IFD offsets until a tag-270 entry is
found or an offset of 0 ends the chain, where the source returns `None`
(modelled as `none`).  The Python `while` loop is unbounded, so the
embedding carries explicit fuel. -/
def walkClassic (c : Cursor) : Nat → Except PyErr (Option (Int × Nat))
  | 0 => .error .outOfFuel
  | fuel + 1 =>
    match c.readUint32 with
    | .error e => .error e
    | .ok (ifdOffset, c1) =>
      if ifdOffset = 0 then .ok none
      else
        match (c1.seek ifdOffset).readUint16 with
        | .error e => .error e
        | .ok (entries, c2) =>
          match scanEntriesClassic c2 entries with
          | .error e => .error e
          | .ok (some r, _) => .ok (some r)
          | .ok (none, c3) => walkClassic c3 fuel

/-- The BigTIFF directory scan of `get_image_description` (lines 337-346):
entries hold tag u16, type u16, count u64, value-or-offset u64. -/
def scanEntriesBig (c : Cursor) : Nat → Except PyErr (Option (Int × Nat) × Cursor)
  | 0 => .ok (none, c)
  | n + 1 =>
    match c.readUint16 with
    | .error e => .error e
    | .ok (tag, c1) =>
      match c1.readUint16 with
      | .error e => .error e
      | .ok (_, c2) =>
        match c2.readUint64 with
        | .error e => .error e
        | .ok (count, c3) =>
          match c3.readUint64 with
          | .error e => .error e
          | .ok (off, c4) =>
            if tag = 270 then .ok (some ((count : Int) - 1, off), c4)
            else scanEntriesBig c4 n

/-- The BigTIFF IFD-chain loop of `get_image_description` (lines 331-346):
64-bit next-IFD offsets and a 64-bit entry count. -/
def walkBig (c : Cursor) : Nat → Except PyErr (Option (Int × Nat))
  | 0 => .error .outOfFuel
  | fuel + 1 =>
    match c.readUint64 with
    | .error e => .error e
    | .ok (ifdOffset, c1) =>
      if ifdOffset = 0 then .ok none
      else
        match (c1.seek ifdOffset).readUint64 with
        | .error e => .error e
        | .ok (entries, c2) =>
          match scanEntriesBig c2 entries with
          | .error e => .error e
          | .ok (some r, _) => .ok (some r)
          | .ok (none, c3) => walkBig c3 fuel

/-- Embeds `TiffReader.get_image_description` (lines 284-353).  The result
is `.ok none` exactly where the source returns `None`.  When a tag-270
entry is found whose offset is 0, and also when the magic is neither 42 nor
43 (both `if` blocks skipped and `description_offset` still 0), the source
reaches `bytearray("")` at line 350, which on Python 3 raises `TypeError`
(string argument without an encoding); otherwise the source seeks to the
captured offset and reads `count - 1` bytes. -/
def getImageDescription (data : List Nat) (fuel : Nat) :
    Except PyErr (Option (List Nat)) :=
  match openCursor data with
  | none => .ok none
  | some c =>
    match c.readUint16 with
    | .error e => .error e
    | .ok (magic, c1) =>
      if magic = 42 then
        match walkClassic c1 fuel with
        | .error e => .error e
        | .ok none => .ok none
        | .ok (some (len, off)) =>
          if off = 0 then .error .typeError
          else .ok (some (pyRead data off len))
      else if magic = 43 then
        match c1.readUint16 with
        | .error e => .error e
        | .ok (v8, c2) =>
          if v8 ≠ 8 then .ok none
          else
            match c2.readUint16 with
            | .error e => .error e
            | .ok (v0, c3) =>
              if v0 ≠ 0 then .ok none
              else
                match walkBig c3 fuel with
                | .error e => .error e
                | .ok none => .ok none
                | .ok (some (len, off)) =>
                  if off = 0 then .error .typeError
                  else .ok (some (pyRead data off len))
      else .error .typeError

/-- One classic IFD entry as written into a synthetic container. -/
structure IfdEntry where
  tag : Nat
  etype : Nat
  count : Nat
  offset : Nat
  deriving DecidableEq, Repr

def serializeEntry (e : IfdEntry) : List Nat :=
  u16LE e.tag ++ u16LE e.etype ++ u32LE e.count ++ u32LE e.offset

def serializeEntries (es : List IfdEntry) : List Nat :=
  (es.map serializeEntry).flatten

/-- Byte size of one serialized classic IFD: entry count (2), entries
(12 each), next-IFD offset (4). -/
def ifdSize (es : List IfdEntry) : Nat := 2 + 12 * es.length + 4

def serializeIfd (es : List IfdEntry) (next : Nat) : List Nat :=
  u16LE es.length ++ serializeEntries es ++ u32LE next

/-- Serialize a linked chain of IFDs laid out consecutively starting at
absolute offset `off`; the last next-IFD offset is 0. -/
def serializeChain (off : Nat) : List (List IfdEntry) → List Nat
  | [] => []
  | es :: rest =>
    serializeIfd es (if rest.isEmpty then 0 else off + ifdSize es)
      ++ serializeChain (off + ifdSize es) rest

def chainSize : List (List IfdEntry) → Nat
  | [] => 0
  | es :: rest => ifdSize es + chainSize rest

/-- A synthetic little-endian classic container: `II`, magic 42, first-IFD
offset 8 (or 0 when the chain is empty), the serialized IFD chain, then
`tail` (holding, for example, description bytes). -/
def mkClassicChain (ifds : List (List IfdEntry)) (tail : List Nat) : List Nat :=
  [73, 73] ++ u16LE 42 ++ u32LE (if ifds.isEmpty then 0 else 8)
    ++ serializeChain 8 ifds ++ tail

/-- A synthetic classic container with one IFD holding `pre` (entries
without tag 270) followed by a tag-270 entry whose stored count is
`desc.length + 1` and whose offset points at the description bytes placed
right after the IFD, with the trailing terminator byte the count
accounts for. -/
def mkClassicDescribed (pre : List IfdEntry) (desc : List Nat) : List Nat :=
  mkClassicChain [pre ++ [⟨270, 2, desc.length + 1, 14 + 12 * (pre.length + 1)⟩]]
    (desc ++ [0])

/-- A synthetic classic container with a single tag-270 entry whose stored
count is 0 and whose offset (26) points at `tail`, the rest of the
stream. -/
def mkClassicDescCount0 (tail : List Nat) : List Nat :=
  mkClassicChain [[⟨270, 2, 0, 26⟩]] tail

/-- The chain layout invariant the classic walk consumes: at `pos` the
stream holds a 32-bit next-IFD offset, either 0 (end of chain) or the
absolute position of the next serialized directory, whose next-IFD field
recursively satisfies the invariant. -/
def goodChain (data : List Nat) : Nat → List (List IfdEntry) → Prop
  | pos, [] => ∃ rest, data.drop pos = u32LE 0 ++ rest
  | pos, es :: ifds =>
    ∃ off rest1 rest2, 0 < off ∧ off < 4294967296 ∧
      data.drop pos = u32LE off ++ rest1 ∧
      data.drop off = u16LE es.length ++ (serializeEntries es ++ rest2) ∧
      es.length < 65536 ∧
      goodChain data (off + 2 + 12 * es.length) ifds

/-- Entry bound and no-tag-270 side conditions for a chain of IFDs. -/
abbrev tagsOk (ifds : List (List IfdEntry)) : Prop :=
  ∀ es ∈ ifds, ∀ e ∈ es, e.tag < 65536 ∧ e.tag ≠ 270

/-- An n-dimensional numeric array: a shape and the row-major (C-order)
flat element list.  Models the numpy and dask arrays exchanged with the
external decode and lazy-array collaborators (spec sections 1 and 6). -/
structure Arr where
  shape : List Nat
  flat : List Int
  deriving DecidableEq, Repr

/-- One TIFF page (a single 2D plane) as exposed by the external tifffile
collaborator: its decoded array and pixel dtype. -/
structure PageModel where
  arr : Arr
  dtype : String
  deriving DecidableEq, Repr

/-- One scene (a tifffile series): the series-level shape compared by the
consistency check, the shape and declared axis labels reported by its page
sequence (`series.pages.shape` / `series.pages.axes`), and the pages
themselves. -/
structure SceneModel where
  shape : List Nat
  pagesShape : List Nat
  pagesAxes : List Char
  pages : List PageModel
  deriving DecidableEq, Repr

/-- The structural view of an open container provided by the external
tifffile collaborator: its ordered scenes. -/
structure TiffModel where
  series : List SceneModel
  deriving DecidableEq, Repr

/-- `tiff.pages`: the pages of the file in on-disk order, the concatenation
of the series page sequences. -/
def TiffModel.pages (t : TiffModel) : List PageModel :=
  (t.series.map SceneModel.pages).flatten

/-- Python list indexing `xs[i]`: `IndexError` when out of range (the
embedded code never uses negative indices). -/
def pyGet {α : Type} (xs : List α) (i : Nat) : Except PyErr α :=
  match xs.get? i with
  | some x => .ok x
  | none => .error .indexError

/-- Embeds `TiffReader._scene_shape_is_consistent` (lines 106-119): every
scene shape is compared to `scenes[0].shape`; an empty series list raises
`IndexError` at the `scenes[0]` access. -/
def sceneShapeIsConsistent (t : TiffModel) : Except PyErr Bool :=
  match pyGet t.series 0 with
  | .error e => .error e
  | .ok s0 => .ok (t.series.all fun s => decide (s.shape = s0.shape))

/-- Embeds `TiffReader._imread` (lines 93-104): open the file, take series
`scene`, its page `page`, and decode that single plane. -/
def imread (t : TiffModel) (scene page : Nat) : Except PyErr Arr :=
  match pyGet t.series scene with
  | .error e => .error e
  | .ok sc =>
    match pyGet sc.pages page with
    | .error e => .error e
    | .ok p => .ok p.arr

/-- `series.asarray()` of the tifffile collaborator (the `decode_scene`
capability of spec section 6): the pages of the series decoded in order and
reshaped to the series shape. -/
def SceneModel.asarray (s : SceneModel) : Arr :=
  ⟨s.shape, (s.pages.map fun p => p.arr.flat).flatten⟩

/-- `TiffFile.asarray()` with no arguments: the first series decoded (the
single-scene return of `_read_immediate`, line 185). -/
def TiffModel.asarray (t : TiffModel) : Arr :=
  match t.series with
  | [] => ⟨[], []⟩
  | s :: _ => s.asarray

/-- `np.stack` on equally shaped arrays: a new leading axis of their count,
data concatenated in order. -/
def npStack (as : List Arr) : Arr :=
  ⟨as.length :: (as.headD ⟨[], []⟩).shape, (as.map Arr.flat).flatten⟩

/-- Embeds `TiffReader._read_immediate` (lines 170-185): inconsistent
scenes return only the caller-selected scene; several consistent scenes are
stacked along a new leading axis; a single scene is returned directly. -/
def readImmediate (t : TiffModel) (S : Nat) : Except PyErr Arr :=
  match sceneShapeIsConsistent t with
  | .error e => .error e
  | .ok consistent =>
    if !consistent then
      match pyGet t.series S with
      | .error e => .error e
      | .ok sc => .ok sc.asarray
    else if 1 < t.series.length then .ok (npStack (t.series.map SceneModel.asarray))
    else .ok t.asarray

/-- All multi-indices of `shape` in row-major (C) order, the iteration
order of `np.ndenumerate`. -/
def cOrderIndices : List Nat → List (List Nat)
  | [] => [[]]
  | d :: ds => (List.range d).flatMap fun j => (cOrderIndices ds).map (j :: ·)

/-- Row-major linear rank of a multi-index within `shape`. -/
def rowMajorRank : List Nat → List Nat → Nat
  | _, [] => 0
  | [], _ :: _ => 0
  | _ :: ds, j :: js => j * ds.prod + rowMajorRank ds js

/-- Python tuple slicing `t[:-2]`. -/
def dropLast2 (l : List Nat) : List Nat := l.take (l.length - 2)

/-- One deferred-decode node of the lazy array: the `(scene, page)` pair a
grid cell is bound to by `da.from_delayed(delayed(_imread)(...))`. -/
structure DelayedNode where
  scene : Nat
  page : Nat
  deriving DecidableEq, Repr

/-- The enumeration loop of `_read_delayed` (lines 143-159): for
enumeration index `i` and grid position `np_index`, the deferred node is
bound to scene `np_index[0]` and page `i // (np_index[0] + 1)`
(line 150). -/
def assignPages (i : Nat) : List (List Nat) → List (List Nat × DelayedNode)
  | [] => []
  | idx :: rest =>
    (idx, ⟨idx.headD 0, i / (idx.headD 0 + 1)⟩) :: assignPages (i + 1) rest

/-- The structural outcome of `_read_delayed` before any page decode: the
placeholder-grid shape, the sample probe shape and dtype, every grid cell
with its deferred-node binding in C enumeration order, and the operating
scene count. -/
structure LazyPlan where
  gridShape : List Nat
  sampleShape : List Nat
  sampleDtype : String
  cells : List (List Nat × DelayedNode)
  sceneCount : Nat
  deriving DecidableEq, Repr

/-- Embeds the structural part of `TiffReader._read_delayed`
(lines 121-159): the `scenes[0].shape` access, scene narrowing on
inconsistency, the sample probe `scenes[0].pages[0]`, the placeholder grid
`(len(scenes), *operating_shape)[:-2] + (1, 1)`, and the scene and page
binding of every deferred node. -/
def mkLazyPlan (t : TiffModel) (S : Nat) : Except PyErr LazyPlan :=
  match pyGet t.series 0 with
  | .error e => .error e
  | .ok s0 =>
    match sceneShapeIsConsistent t with
    | .error e => .error e
    | .ok consistent =>
      match (if consistent then .ok (t.series, s0.shape)
             else match pyGet t.series S with
                  | .error e => .error e
                  | .ok sS => .ok ([sS], sS.shape) :
             Except PyErr (List SceneModel × List Nat)) with
      | .error e => .error e
      | .ok (scenes, opShape) =>
        match pyGet scenes 0 with
        | .error e => .error e
        | .ok sc0 =>
          match pyGet sc0.pages 0 with
          | .error e => .error e
          | .ok p0 =>
            let grid := dropLast2 (scenes.length :: opShape) ++ [1, 1]
            .ok ⟨grid, p0.arr.shape, p0.dtype,
              assignPages 0 (cOrderIndices grid), scenes.length⟩

/-- Modelled from the spec: the external block-merge capability
(`da.block`, spec section 4.6 steps 3-5), specialized to the grids this
reader builds, whose trailing two axes are singleton placeholders: the
merged shape is the leading grid extents followed by the declared per-node
block shape, and the row-major data is the concatenation of the blocks in
grid C-order. -/
def daBlock (gridLeading blockShape : List Nat) (blocks : List Arr) : Arr :=
  ⟨gridLeading ++ blockShape, (blocks.map Arr.flat).flatten⟩

/-- `data[0, :]`: index out the leading axis, keeping its first
hyperslab. -/
def index0 (a : Arr) : Except PyErr Arr :=
  match a.shape with
  | [] => .error .indexError
  | d :: rest =>
    if d = 0 then .error .indexError else .ok ⟨rest, a.flat.take rest.prod⟩

/-- `_read_delayed` followed by forcing every deferred node: each node runs
`TiffReader._imread` on its `(scene, page)` binding, the grid is
block-merged, and a single-scene result is indexed with `data[0, :]`
(lines 161-168). -/
def readDelayedForced (t : TiffModel) (S : Nat) : Except PyErr Arr :=
  match mkLazyPlan t S with
  | .error e => .error e
  | .ok plan =>
    match plan.cells.mapM (fun cell => imread t cell.2.scene cell.2.page) with
    | .error e => .error e
    | .ok blocks =>
      let merged := daBlock (dropLast2 plan.gridShape) plan.sampleShape blocks
      if plan.sceneCount = 1 then index0 merged else .ok merged

/-- Modelled from the spec: the `Dimensions` constants of
`aicsimageio/constants.py`, which is not among the sources under
verification.  Sections 3 and 4.4 and the glossary of the specification fix
a canonical alphabet of recognized axis symbols — scene, time, channel,
depth/Z, Y, X, in canonical default order — with the scene label `S`
prepended for multi-scene containers (example dims `SZYX`). -/
def defaultOrder : List Char := ['S', 'T', 'C', 'Z', 'Y', 'X']

/-- Modelled from the spec: `Dimensions.Scene`, the scene-axis label. -/
def sceneDim : Char := 'S'

/-- Embeds `TiffReader._guess_tiff_dims` (lines 187-212).  The first
statement of the body (line 189) evaluates `self.guess_dim_order(...)`, but
the function is a `@staticmethod` whose only parameters are `tiff` and `S`:
the name `self` is bound in no enclosing scope (nor is `single_scene_dims`,
iterated at line 191), and Python evaluates the callee before its
arguments, so every call raises `NameError` for `self` at line 189 before
any other work. -/
def guessTiffDims (_t : TiffModel) (_S : Nat) : Except PyErr (List Char) :=
  .error (.nameError "self")

/-- The `TiffProperties` record (lines 25-28). -/
structure TiffProps where
  dims : List Char
  shape : List Nat
  dtype : String
  deriving DecidableEq, Repr

/-- Embeds `TiffReader._get_tiff_properties` (lines 214-252): read the
declared axes and shape of scene `S` and the dtype of the first file page;
trust the declared axes when all are recognized, otherwise fall back to
`_guess_tiff_dims`; prepend the scene label and scene count only when the
container is multi-scene with consistent scene shapes. -/
def getTiffProperties (t : TiffModel) (S : Nat) : Except PyErr TiffProps :=
  match pyGet t.series S with
  | .error e => .error e
  | .ok sc =>
    match pyGet t.pages 0 with
    | .error e => .error e
    | .ok p0 =>
      if sc.pagesAxes.all (fun d => decide (d ∈ defaultOrder)) then
        if 1 < t.series.length then
          match sceneShapeIsConsistent t with
          | .error e => .error e
          | .ok b =>
            if b then
              .ok ⟨sceneDim :: sc.pagesAxes, t.series.length :: sc.pagesShape, p0.dtype⟩
            else .ok ⟨sc.pagesAxes, sc.pagesShape, p0.dtype⟩
        else .ok ⟨sc.pagesAxes, sc.pagesShape, p0.dtype⟩
      else
        match guessTiffDims t S with
        | .error e => .error e
        | .ok best =>
          if 1 < t.series.length then
            match sceneShapeIsConsistent t with
            | .error e => .error e
            | .ok b =>
              if b then
                .ok ⟨sceneDim :: best, t.series.length :: sc.pagesShape, p0.dtype⟩
              else .ok ⟨best, sc.pagesShape, p0.dtype⟩
          else .ok ⟨best, sc.pagesShape, p0.dtype⟩

/-- Which cached property getter is called (lines 254-282). -/
inductive PropOp where
  | dims
  | shape
  | dtype
  deriving DecidableEq, Repr

/-- The value a property getter returns. -/
inductive PropVal where
  | dims (v : List Char)
  | shape (v : List Nat)
  | dtype (v : String)
  deriving DecidableEq, Repr

/-- The reader instance cache `_dims` / `_shape` / `_dtype`, all `None`
after `__init__`. -/
structure ReaderCache where
  cdims : Option (List Char)
  cshape : Option (List Nat)
  cdtype : Option String
  deriving DecidableEq, Repr

def emptyCache : ReaderCache := ⟨none, none, none⟩

/-- The value of property `op` under a resolved properties record. -/
def valOf (p : TiffProps) : PropOp → PropVal
  | .dims => .dims p.dims
  | .shape => .shape p.shape
  | .dtype => .dtype p.dtype

/-- Embeds one call to a cached property getter (lines 254-282): each
getter checks its own cached field and, on a miss, runs
`_get_tiff_properties` once and fills all three fields.  The returned `Nat`
counts the structural introspections this call performed. -/
def runPropOp (t : TiffModel) (S : Nat) (st : ReaderCache) :
    PropOp → Except PyErr (PropVal × ReaderCache × Nat)
  | .dims =>
    match st.cdims with
    | some v => .ok (.dims v, st, 0)
    | none =>
      match getTiffProperties t S with
      | .error e => .error e
      | .ok p => .ok (.dims p.dims, ⟨some p.dims, some p.shape, some p.dtype⟩, 1)
  | .shape =>
    match st.cshape with
    | some v => .ok (.shape v, st, 0)
    | none =>
      match getTiffProperties t S with
      | .error e => .error e
      | .ok p => .ok (.shape p.shape, ⟨some p.dims, some p.shape, some p.dtype⟩, 1)
  | .dtype =>
    match st.cdtype with
    | some v => .ok (.dtype v, st, 0)
    | none =>
      match getTiffProperties t S with
      | .error e => .error e
      | .ok p => .ok (.dtype p.dtype, ⟨some p.dims, some p.shape, some p.dtype⟩, 1)

/-- A sequence of property-getter calls on one reader instance, threading
the cache and accumulating the introspection count. -/
def runPropOps (t : TiffModel) (S : Nat) :
    ReaderCache → List PropOp → Except PyErr (List PropVal × ReaderCache × Nat)
  | st, [] => .ok ([], st, 0)
  | st, op :: ops =>
    match runPropOp t S st op with
    | .error e => .error e
    | .ok (v, st1, n1) =>
      match runPropOps t S st1 ops with
      | .error e => .error e
      | .ok (vs, st2, n2) => .ok (v :: vs, st2, n1 + n2)

/-- A single-scene, single-page 2D container of shape (100, 100) with the
given pixel data. -/
def mkSingleScene (flat : List Int) : TiffModel :=
  ⟨[⟨[100, 100], [100, 100], ['Y', 'X'], [⟨⟨[100, 100], flat⟩, "u2"⟩]⟩]⟩

/-- A scene of series shape (3, 4, 4) with labels ZYX and one decoded
4x4 page. -/
def scene344 : SceneModel :=
  ⟨[3, 4, 4], [3, 4, 4], ['Z', 'Y', 'X'], [⟨⟨[4, 4], List.replicate 16 0⟩, "u2"⟩]⟩

/-- A two-scene container with consistent shapes, for exercising the lazy
placeholder grid. -/
def tiffTwo344 : TiffModel := ⟨[scene344, scene344]⟩

/-- The lazy plan the reader builds for `tiffTwo344`: grid (2, 3, 1, 1). -/
def planTwo344 : LazyPlan :=
  ⟨[2, 3, 1, 1], [4, 4], "u2", assignPages 0 (cOrderIndices [2, 3, 1, 1]), 2⟩

/-- A scene of shape (5, 100, 100) with recognized labels ZYX. -/
def scene5z : SceneModel :=
  ⟨[5, 100, 100], [5, 100, 100], ['Z', 'Y', 'X'], [⟨⟨[100, 100], []⟩, "u2"⟩]⟩

/-- The three-scene consistent container of the dims example. -/
def tiffThree5z : TiffModel := ⟨[scene5z, scene5z, scene5z]⟩

/-- A scene whose declared labels contain the unrecognized symbol Q. -/
def sceneQ : SceneModel :=
  ⟨[5, 4, 4], [5, 4, 4], ['Z', 'Q', 'X'], [⟨⟨[4, 4], []⟩, "u2"⟩]⟩

/-- A single-scene container with an unrecognized declared label. -/
def tiffQ1 : TiffModel := ⟨[sceneQ]⟩

/-- A two-scene consistent container with an unrecognized declared
label. -/
def tiffQ2 : TiffModel := ⟨[sceneQ, sceneQ]⟩

/-- A single-scene container with recognized labels, for the caching
witness. -/
def tiffZyx1 : TiffModel :=
  ⟨[⟨[5, 4, 4], [5, 4, 4], ['Z', 'Y', 'X'], [⟨⟨[4, 4], []⟩, "u2"⟩]⟩]⟩

theorem bytesToNatLE_u16 (n : Nat) : bytesToNatLE (u16LE n) = n % 65536 := by
  simp [bytesToNatLE, u16LE]
  omega

theorem bytesToNatLE_u32 (n : Nat) : bytesToNatLE (u32LE n) = n % 4294967296 := by
  simp [bytesToNatLE, u32LE]
  omega

/-- C1: the spec says the classifier returns `NotRecognized` for every
stream whose first two bytes are a valid endianness marker but whose 16-bit
magic value is neither 42 nor 43.  The code instead falls through both
magic checks to `return True`: for every such four-byte header,
`_is_this_type` reports the stream as recognized. -/
theorem c1_unknown_magic_is_accepted (b0 b1 : Nat) (hb0 : b0 < 256) (hb1 : b1 < 256)
    (h42 : b0 + 256 * b1 ≠ 42) (h43 : b0 + 256 * b1 ≠ 43) :
    isThisType [73, 73, b0, b1] = .ok true := by
  have hm : bytesToNatLE [b0, b1] = b0 + 256 * b1 := by
    simp [bytesToNatLE]
    omega
  simp [isThisType, openCursor, Cursor.readUint16, Cursor.readUint, Cursor.readBytes, hm,
    h42, h43]

/-- Witness for C1: the concrete stream `II` followed by little-endian
magic 44 is accepted by `_is_this_type`. -/
theorem c1_unknown_magic_is_accepted_w : isThisType [73, 73, 44, 0] = .ok true :=
  c1_unknown_magic_is_accepted 44 0 (by decide) (by decide) (by decide) (by decide)

theorem take_len_append (A B : List Nat) : (A ++ B).take A.length = A := by
  simp

theorem drop_len_append (A B : List Nat) : (A ++ B).drop A.length = B := by
  simp

theorem drop_add_of_layout (data L R : List Nat) (off k : Nat)
    (h : data.drop off = L ++ R) (hk : L.length = k) :
    data.drop (off + k) = R := by
  have h1 : data.drop (off + k) = (data.drop off).drop k := by
    rw [List.drop_drop, Nat.add_comm]
  rw [h1, h, ← hk, drop_len_append]

theorem readBytes_of_layout (c : Cursor) (bs rest : List Nat)
    (hd : c.data.drop c.pos = bs ++ rest) :
    c.readBytes bs.length = .ok (bs, { c with pos := c.pos + bs.length }) := by
  simp [Cursor.readBytes, hd, take_len_append]

theorem readUint_of_layout (c : Cursor) (bs rest : List Nat)
    (hd : c.data.drop c.pos = bs ++ rest) (hl : c.little = true) :
    c.readUint bs.length =
      .ok (bytesToNatLE bs, { c with pos := c.pos + bs.length }) := by
  simp [Cursor.readUint, readBytes_of_layout c bs rest hd, hl]

theorem length_u16LE (n : Nat) : (u16LE n).length = 2 := rfl

theorem length_u32LE (n : Nat) : (u32LE n).length = 4 := rfl

theorem readUint16_layout (c : Cursor) (n : Nat) (rest : List Nat)
    (hl : c.little = true) (hd : c.data.drop c.pos = u16LE n ++ rest) :
    c.readUint16 = .ok (n % 65536, { c with pos := c.pos + 2 }) := by
  have h := readUint_of_layout c (u16LE n) rest hd hl
  rw [length_u16LE, bytesToNatLE_u16] at h
  exact h

theorem readUint32_layout (c : Cursor) (n : Nat) (rest : List Nat)
    (hl : c.little = true) (hd : c.data.drop c.pos = u32LE n ++ rest) :
    c.readUint32 = .ok (n % 4294967296, { c with pos := c.pos + 4 }) := by
  have h := readUint_of_layout c (u32LE n) rest hd hl
  rw [length_u32LE, bytesToNatLE_u32] at h
  exact h

theorem length_serializeEntry (e : IfdEntry) : (serializeEntry e).length = 12 := by
  simp [serializeEntry, u16LE, u32LE]

theorem length_serializeEntries (es : List IfdEntry) :
    (serializeEntries es).length = 12 * es.length := by
  induction es with
  | nil => simp [serializeEntries]
  | cons e es ih =>
    simp [serializeEntries, length_serializeEntry] at ih ⊢
    omega

theorem serializeEntries_cons (e : IfdEntry) (es : List IfdEntry) :
    serializeEntries (e :: es) = serializeEntry e ++ serializeEntries es := by
  simp [serializeEntries]

theorem serializeEntries_append (xs ys : List IfdEntry) :
    serializeEntries (xs ++ ys) = serializeEntries xs ++ serializeEntries ys := by
  simp [serializeEntries]

theorem readUint16_at (data : List Nat) (pos n : Nat) (rest : List Nat)
    (hd : data.drop pos = u16LE n ++ rest) :
    Cursor.readUint16 ⟨data, pos, true⟩ = .ok (n % 65536, ⟨data, pos + 2, true⟩) :=
  readUint16_layout ⟨data, pos, true⟩ n rest rfl hd

theorem readUint32_at (data : List Nat) (pos n : Nat) (rest : List Nat)
    (hd : data.drop pos = u32LE n ++ rest) :
    Cursor.readUint32 ⟨data, pos, true⟩ = .ok (n % 4294967296, ⟨data, pos + 4, true⟩) :=
  readUint32_layout ⟨data, pos, true⟩ n rest rfl hd

/-- Scanning a directory that starts with entries `es`, none of which has
tag 270, skips over all of them: 12 bytes and one remaining-entry count
consumed per entry. -/
theorem scanEntries_skip (es : List IfdEntry) :
    ∀ (k : Nat) (data : List Nat) (pos : Nat) (rest : List Nat),
    data.drop pos = serializeEntries es ++ rest →
    (∀ e ∈ es, e.tag < 65536 ∧ e.tag ≠ 270) →
    scanEntriesClassic ⟨data, pos, true⟩ (es.length + k) =
      scanEntriesClassic ⟨data, pos + 12 * es.length, true⟩ k := by
  induction es with
  | nil =>
    intro k data pos rest hd htags
    simp
  | cons e es ih =>
    intro k data pos rest hd htags
    have hstep : (e :: es).length + k = (es.length + k) + 1 := by
      simp only [List.length_cons]
      omega
    rw [hstep]
    have hd1 : data.drop pos =
        u16LE e.tag ++ (u16LE e.etype ++ (u32LE e.count ++ (u32LE e.offset ++
          (serializeEntries es ++ rest)))) := by
      rw [hd, serializeEntries_cons, serializeEntry]
      simp [List.append_assoc]
    have hd2 := drop_add_of_layout data _ _ pos 2 hd1 (length_u16LE _)
    have hd3 := drop_add_of_layout data _ _ (pos + 2) 2 hd2 (length_u16LE _)
    have hd4 := drop_add_of_layout data _ _ (pos + 2 + 2) 4 hd3 (length_u32LE _)
    have hd5 := drop_add_of_layout data _ _ (pos + 2 + 2 + 4) 4 hd4 (length_u32LE _)
    have r1 := readUint16_at data pos e.tag _ hd1
    have r2 := readUint16_at data (pos + 2) e.etype _ hd2
    have r3 := readUint32_at data (pos + 2 + 2) e.count _ hd3
    have r4 := readUint32_at data (pos + 2 + 2 + 4) e.offset _ hd4
    have htag_mod : e.tag % 65536 = e.tag :=
      Nat.mod_eq_of_lt (htags e (List.mem_cons_self e es)).1
    have htag_ne : e.tag ≠ 270 := (htags e (List.mem_cons_self e es)).2
    have hrec := ih k data (pos + 2 + 2 + 4 + 4) rest hd5
      (fun x hx => htags x (List.mem_cons_of_mem e hx))
    have hpos : pos + 2 + 2 + 4 + 4 + 12 * es.length = pos + 12 * (e :: es).length := by
      simp only [List.length_cons]
      omega
    rw [scanEntriesClassic]
    simp only [r1, r2, r3, r4, htag_mod]
    rw [if_neg htag_ne, hrec, hpos]

theorem length_serializeIfd (es : List IfdEntry) (next : Nat) :
    (serializeIfd es next).length = ifdSize es := by
  simp [serializeIfd, length_serializeEntries, ifdSize, u16LE, u32LE]
  omega

/-- Walking a chain that satisfies the layout invariant and holds no
tag-270 entry ends at the zero next-IFD offset and returns `none` (the
source returns `None`). -/
theorem walk_chain_none (ifds : List (List IfdEntry)) :
    ∀ (fuel : Nat) (data : List Nat) (pos : Nat),
    goodChain data pos ifds →
    tagsOk ifds →
    walkClassic ⟨data, pos, true⟩ (ifds.length + 1 + fuel) = .ok none := by
  induction ifds with
  | nil =>
    intro fuel data pos hg _htags
    obtain ⟨rest, hrest⟩ := hg
    have hz : ([] : List (List IfdEntry)).length + 1 + fuel = fuel + 1 := by
      simp only [List.length_nil]
      omega
    rw [hz, walkClassic]
    simp only [readUint32_at data pos 0 rest hrest]
    simp
  | cons es ifds ih =>
    intro fuel data pos hg htags
    obtain ⟨off, rest1, rest2, hoffpos, hoffbound, hfield, hifd, hlen, hrec⟩ := hg
    have hstep : (es :: ifds).length + 1 + fuel = (ifds.length + 1 + fuel) + 1 := by
      simp only [List.length_cons]
      omega
    have hom : off % 4294967296 = off := Nat.mod_eq_of_lt hoffbound
    have hlm : es.length % 65536 = es.length := Nat.mod_eq_of_lt hlen
    have hifd2 := drop_add_of_layout data _ _ off 2 hifd (length_u16LE _)
    have hscan : scanEntriesClassic ⟨data, off + 2, true⟩ es.length =
        scanEntriesClassic ⟨data, off + 2 + 12 * es.length, true⟩ 0 := by
      have h := scanEntries_skip es 0 data (off + 2) rest2 hifd2
        (htags es (List.mem_cons_self es ifds))
      simpa using h
    rw [hstep, walkClassic]
    simp only [readUint32_at data pos off rest1 hfield, hom]
    rw [if_neg (Nat.pos_iff_ne_zero.mp hoffpos)]
    simp only [Cursor.seek]
    simp only [readUint16_at data off es.length _ hifd, hlm]
    simp only [hscan, scanEntriesClassic]
    exact ih fuel data (off + 2 + 12 * es.length) hrec
      (fun xs hxs => htags xs (List.mem_cons_of_mem es hxs))

/-- A chain serialized consecutively at `off` satisfies the walk layout
invariant. -/
theorem goodChain_of_layout (ifds : List (List IfdEntry)) :
    ∀ (data : List Nat) (pos off : Nat) (rest1 restC : List Nat),
    0 < off → off + chainSize ifds < 4294967296 →
    (∀ es ∈ ifds, es.length < 65536) →
    data.drop pos = u32LE (if ifds.isEmpty then 0 else off) ++ rest1 →
    data.drop off = serializeChain off ifds ++ restC →
    goodChain data pos ifds := by
  induction ifds with
  | nil =>
    intro data pos off rest1 restC _h1 _h2 _h3 hfield _hlay
    exact ⟨rest1, by simpa using hfield⟩
  | cons es ifds ih =>
    intro data pos off rest1 restC hpos hbound hlens hfield hlay
    have hcs : chainSize (es :: ifds) = ifdSize es + chainSize ifds := rfl
    have hlay1 : data.drop off =
        u16LE es.length ++ (serializeEntries es ++
          (u32LE (if ifds.isEmpty then 0 else off + ifdSize es) ++
            (serializeChain (off + ifdSize es) ifds ++ restC))) := by
      rw [hlay]
      simp [serializeChain, serializeIfd, List.append_assoc]
    refine ⟨off, rest1,
      u32LE (if ifds.isEmpty then 0 else off + ifdSize es) ++
        (serializeChain (off + ifdSize es) ifds ++ restC),
      hpos, by omega, by simpa using hfield, hlay1,
      hlens es (List.mem_cons_self es ifds), ?_⟩
    have hfield2 : data.drop (off + 2 + 12 * es.length) =
        u32LE (if ifds.isEmpty then 0 else off + ifdSize es) ++
          (serializeChain (off + ifdSize es) ifds ++ restC) := by
      have h1 := drop_add_of_layout data _ _ off 2 hlay1 (length_u16LE _)
      have h2 := drop_add_of_layout data _ _ (off + 2) (12 * es.length) h1
        (length_serializeEntries es)
      exact h2
    have hlay2 : data.drop (off + ifdSize es) =
        serializeChain (off + ifdSize es) ifds ++ restC := by
      have h := drop_add_of_layout data (serializeIfd es
          (if ifds.isEmpty then 0 else off + ifdSize es))
          (serializeChain (off + ifdSize es) ifds ++ restC) off (ifdSize es)
          (by rw [hlay]; simp [serializeChain, List.append_assoc])
          (length_serializeIfd _ _)
      exact h
    exact ih data (off + 2 + 12 * es.length) (off + ifdSize es) _ restC
      (by omega) (by omega) (fun xs hxs => hlens xs (List.mem_cons_of_mem es hxs))
      hfield2 hlay2

theorem mkClassicChain_drop2 (ifds : List (List IfdEntry)) (tail : List Nat) :
    (mkClassicChain ifds tail).drop 2 =
      u16LE 42 ++ (u32LE (if ifds.isEmpty then 0 else 8) ++
        (serializeChain 8 ifds ++ tail)) := by
  simp [mkClassicChain, List.append_assoc]

theorem mkClassicChain_drop4 (ifds : List (List IfdEntry)) (tail : List Nat) :
    (mkClassicChain ifds tail).drop 4 =
      u32LE (if ifds.isEmpty then 0 else 8) ++ (serializeChain 8 ifds ++ tail) := by
  simp [mkClassicChain, u16LE, List.append_assoc]

theorem mkClassicChain_drop8 (ifds : List (List IfdEntry)) (tail : List Nat) :
    (mkClassicChain ifds tail).drop 8 = serializeChain 8 ifds ++ tail := by
  simp [mkClassicChain, u16LE, u32LE, List.append_assoc]

theorem getImageDescription_mkChain (ifds : List (List IfdEntry)) (tail : List Nat)
    (fuel : Nat) :
    getImageDescription (mkClassicChain ifds tail) fuel =
      match walkClassic ⟨mkClassicChain ifds tail, 4, true⟩ fuel with
      | .error e => .error e
      | .ok none => .ok none
      | .ok (some (len, off)) =>
        if off = 0 then .error .typeError
        else .ok (some (pyRead (mkClassicChain ifds tail) off len)) := by
  have hopen : openCursor (mkClassicChain ifds tail) =
      some ⟨mkClassicChain ifds tail, 2, true⟩ := rfl
  have hmagic := readUint16_at (mkClassicChain ifds tail) 2 42 _
    (mkClassicChain_drop2 ifds tail)
  rw [getImageDescription, hopen]
  simp only [hmagic]
  norm_num

theorem length_serializeChain (ifds : List (List IfdEntry)) :
    ∀ off, (serializeChain off ifds).length = chainSize ifds := by
  induction ifds with
  | nil => intro off; simp [serializeChain, chainSize]
  | cons es ifds ih =>
    intro off
    simp [serializeChain, chainSize, length_serializeIfd, ih]

/-- C2 (amended): for every classic container whose IFD chain holds no
tag-270 entry (any number of linked directories, the chain ending with a
next-IFD offset of 0), `get_image_description` returns `None` — not an
empty byte sequence — and raises no error. -/
theorem c2_no_tag270_chain_returns_none (ifds : List (List IfdEntry)) (tail : List Nat)
    (fuel : Nat)
    (hsz : 8 + chainSize ifds < 4294967296)
    (hlens : ∀ es ∈ ifds, es.length < 65536)
    (htags : tagsOk ifds) :
    getImageDescription (mkClassicChain ifds tail) (ifds.length + 1 + fuel) =
      .ok none := by
  rw [getImageDescription_mkChain]
  have hg : goodChain (mkClassicChain ifds tail) 4 ifds :=
    goodChain_of_layout ifds (mkClassicChain ifds tail) 4 8 _ tail
      (by omega) (by omega) hlens
      (mkClassicChain_drop4 ifds tail) (mkClassicChain_drop8 ifds tail)
  rw [walk_chain_none ifds fuel _ 4 hg htags]

/-- Witness for C2: a one-directory container holding a single tag-256
entry yields `None`. -/
theorem c2_no_tag270_chain_returns_none_w :
    getImageDescription
      (mkClassicChain [[⟨256, 4, 1, 8⟩]] [])
      (([[(⟨256, 4, 1, 8⟩ : IfdEntry)]] : List (List IfdEntry)).length + 1 + 0) =
        .ok none :=
  c2_no_tag270_chain_returns_none [[⟨256, 4, 1, 8⟩]] [] 0 (by decide) (by decide)
    (by decide)

/-- Counterexample for C2 as stated: on a concrete classic container with
one IFD and no tag-270 entry, `get_image_description` returns `None`
(Python), which is not the empty byte sequence the claim promises. -/
theorem c2_counterexample :
    getImageDescription (mkClassicChain [[⟨256, 4, 1, 8⟩]] []) 5 = .ok none ∧
    (Except.ok none : Except PyErr (Option (List Nat))) ≠ .ok (some []) := by
  constructor
  · rfl
  · simp

/-- Walking a single-directory container whose entries are `pre` (no tag
270) followed by entry `e` with tag 270 stops at `e` and captures
`(count - 1, offset)`. -/
theorem walk_single_found (pre : List IfdEntry) (e : IfdEntry) (tail : List Nat)
    (fuel : Nat)
    (hpre : ∀ x ∈ pre, x.tag < 65536 ∧ x.tag ≠ 270)
    (hn : pre.length + 1 < 65536)
    (htag : e.tag = 270)
    (hcnt : e.count < 4294967296)
    (hoff : e.offset < 4294967296) :
    walkClassic ⟨mkClassicChain [pre ++ [e]] tail, 4, true⟩ (fuel + 1) =
      .ok (some ((e.count : Int) - 1, e.offset)) := by
  set data := mkClassicChain [pre ++ [e]] tail with hdata
  have h4 : data.drop 4 = u32LE 8 ++ (serializeChain 8 [pre ++ [e]] ++ tail) := by
    have h := mkClassicChain_drop4 [pre ++ [e]] tail
    simpa using h
  have h8 : data.drop 8 =
      u16LE (pre.length + 1) ++
        (serializeEntries pre ++
          (serializeEntry e ++ (u32LE 0 ++ tail))) := by
    have h := mkClassicChain_drop8 [pre ++ [e]] tail
    rw [hdata, h]
    simp [serializeChain, serializeIfd, serializeEntries_append, serializeEntries_cons,
      serializeEntries, List.append_assoc]
  have h10 : data.drop 10 =
      serializeEntries pre ++ (serializeEntry e ++ (u32LE 0 ++ tail)) :=
    drop_add_of_layout data _ _ 8 2 h8 (length_u16LE _)
  have h10e : data.drop (10 + 12 * pre.length) =
      serializeEntry e ++ (u32LE 0 ++ tail) :=
    drop_add_of_layout data _ _ 10 (12 * pre.length) h10 (length_serializeEntries pre)
  have he1 : data.drop (10 + 12 * pre.length) =
      u16LE e.tag ++ (u16LE e.etype ++ (u32LE e.count ++ (u32LE e.offset ++
        (u32LE 0 ++ tail)))) := by
    rw [h10e, serializeEntry]
    simp [List.append_assoc]
  have he2 := drop_add_of_layout data _ _ (10 + 12 * pre.length) 2 he1 (length_u16LE _)
  have he3 := drop_add_of_layout data _ _ (10 + 12 * pre.length + 2) 2 he2
    (length_u16LE _)
  have he4 := drop_add_of_layout data _ _ (10 + 12 * pre.length + 2 + 2) 4 he3
    (length_u32LE _)
  have hscan1 : scanEntriesClassic ⟨data, 10 + 12 * pre.length, true⟩ 1 =
      .ok (some ((e.count : Int) - 1, e.offset),
        ⟨data, 10 + 12 * pre.length + 2 + 2 + 4 + 4, true⟩) := by
    rw [show (1 : Nat) = 0 + 1 from rfl, scanEntriesClassic]
    simp only [readUint16_at data (10 + 12 * pre.length) e.tag _ he1,
      readUint16_at data (10 + 12 * pre.length + 2) e.etype _ he2,
      readUint32_at data (10 + 12 * pre.length + 2 + 2) e.count _ he3,
      readUint32_at data (10 + 12 * pre.length + 2 + 2 + 4) e.offset _ he4]
    rw [htag]
    norm_num [Nat.mod_eq_of_lt hcnt, Nat.mod_eq_of_lt hoff]
  have hscan : scanEntriesClassic ⟨data, 10, true⟩ (pre.length + 1) =
      .ok (some ((e.count : Int) - 1, e.offset),
        ⟨data, 10 + 12 * pre.length + 2 + 2 + 4 + 4, true⟩) := by
    rw [scanEntries_skip pre 1 data 10 _ h10 hpre, hscan1]
  rw [walkClassic]
  simp only [readUint32_at data 4 8 _ h4]
  norm_num [Cursor.seek]
  simp only [readUint16_at data 8 (pre.length + 1) _ h8, Nat.mod_eq_of_lt hn, hscan]

/-- C5: for a classic container whose IFD holds (after any number of
non-270 entries) a tag-270 entry with stored count `L + 1` and a valid
offset pointing at the description bytes, `get_image_description` returns
exactly the `L` description bytes, dropping the trailing terminator byte:
writing a description of length `L` and extracting it round-trips. -/
theorem c5_description_roundtrip (pre : List IfdEntry) (desc : List Nat) (fuel : Nat)
    (hpre : ∀ x ∈ pre, x.tag < 65536 ∧ x.tag ≠ 270)
    (hn : pre.length + 1 < 65536)
    (hL : desc.length + 1 < 4294967296) :
    getImageDescription (mkClassicDescribed pre desc) (fuel + 1) = .ok (some desc) := by
  rw [mkClassicDescribed, getImageDescription_mkChain,
    walk_single_found pre ⟨270, 2, desc.length + 1, 14 + 12 * (pre.length + 1)⟩
      (desc ++ [0]) fuel hpre hn rfl hL
      (by show 14 + 12 * (pre.length + 1) < 4294967296; omega)]
  have hoffne : (14 + 12 * (pre.length + 1)) ≠ 0 := by omega
  have hdropoff : (mkClassicChain [pre ++ [⟨270, 2, desc.length + 1,
      14 + 12 * (pre.length + 1)⟩]] (desc ++ [0])).drop (14 + 12 * (pre.length + 1)) =
      desc ++ [0] := by
    have h0 := drop_add_of_layout
      (mkClassicChain [pre ++ [⟨270, 2, desc.length + 1,
        14 + 12 * (pre.length + 1)⟩]] (desc ++ [0]))
      ([73, 73] ++ (u16LE 42 ++ (u32LE 8 ++
        serializeChain 8 [pre ++ [⟨270, 2, desc.length + 1,
          14 + 12 * (pre.length + 1)⟩]])))
      (desc ++ [0]) 0 (14 + 12 * (pre.length + 1))
      (by simp [mkClassicChain, List.append_assoc])
      (by simp [length_serializeChain, chainSize, ifdSize, u16LE, u32LE]; omega)
    simpa using h0
  have hcast : ((desc.length + 1 : Nat) : Int) - 1 = (desc.length : Int) := by
    push_cast
    ring
  simp only [if_neg hoffne, hcast]
  simp [pyRead, hdropoff, not_lt.mpr (Int.natCast_nonneg desc.length),
    take_len_append]

/-- Witness for C5: the two-byte description `[104, 105]` round-trips. -/
theorem c5_description_roundtrip_w :
    getImageDescription (mkClassicDescribed [] [104, 105]) (0 + 1) =
      .ok (some [104, 105]) :=
  c5_description_roundtrip [] [104, 105] 0 (by simp) (by norm_num) (by norm_num)

/-- C10: when the first tag-270 entry found carries a stored count of 0,
the computed description length is `0 - 1 = -1` (Python integers), and
`read(-1)` returns every byte from the entry offset to the end of the
stream, not an empty or length-`count - 1` sequence. -/
theorem c10_count_zero_reads_to_eof (tail : List Nat) (fuel : Nat) :
    getImageDescription (mkClassicDescCount0 tail) (fuel + 1) = .ok (some tail) := by
  rw [mkClassicDescCount0, getImageDescription_mkChain]
  have hw := walk_single_found [] ⟨270, 2, 0, 26⟩ tail fuel (by simp) (by norm_num) rfl
    (by norm_num) (by norm_num)
  simp only [List.nil_append] at hw
  rw [hw]
  have hdrop : (mkClassicChain [[(⟨270, 2, 0, 26⟩ : IfdEntry)]] tail).drop 26 = tail := by
    have h0 := drop_add_of_layout (mkClassicChain [[(⟨270, 2, 0, 26⟩ : IfdEntry)]] tail)
      ([73, 73] ++ (u16LE 42 ++ (u32LE 8 ++
        serializeChain 8 [[(⟨270, 2, 0, 26⟩ : IfdEntry)]])))
      tail 0 26 (by simp [mkClassicChain, List.append_assoc])
      (by simp [length_serializeChain, chainSize, ifdSize, u16LE, u32LE])
    simpa using h0
  norm_num [pyRead, hdrop]

theorem length_cOrder_flatMap (ds : List Nat) (d : Nat) :
    ((List.range d).flatMap fun j => (cOrderIndices ds).map (j :: ·)).length =
      d * (cOrderIndices ds).length := by
  induction d with
  | zero => simp
  | succ d ih =>
    rw [List.range_succ, List.flatMap_append]
    simp [ih, Nat.succ_mul]

theorem length_cOrderIndices (shape : List Nat) :
    (cOrderIndices shape).length = shape.prod := by
  induction shape with
  | nil => simp [cOrderIndices]
  | cons d ds ih =>
    rw [cOrderIndices, length_cOrder_flatMap, ih]
    simp

/-- Decomposition of a C-order enumeration position over a cons shape:
element `i` is `j :: js` with `i = j * prod + r` and `js` the element `r`
of the tail enumeration. -/
theorem cOrder_cons_get (ds : List Nat) (d : Nat) :
    ∀ (i : Nat) (idx : List Nat), (cOrderIndices (d :: ds))[i]? = some idx →
      ∃ j js r, idx = j :: js ∧ j < d ∧ (cOrderIndices ds)[r]? = some js ∧
        i = j * (cOrderIndices ds).length + r ∧ r < (cOrderIndices ds).length := by
  induction d with
  | zero =>
    intro i idx h
    simp [cOrderIndices] at h
  | succ d ih =>
    intro i idx h
    rw [cOrderIndices, List.range_succ, List.flatMap_append] at h
    simp only [List.flatMap_cons, List.flatMap_nil, List.append_nil] at h
    by_cases hi : i < ((List.range d).flatMap fun j => (cOrderIndices ds).map (j :: ·)).length
    · rw [List.getElem?_append_left hi] at h
      obtain ⟨j, js, r, h1, h2, h3, h4, h5⟩ := ih i idx (by rw [cOrderIndices]; exact h)
      exact ⟨j, js, r, h1, Nat.lt_succ_of_lt h2, h3, h4, h5⟩
    · push_neg at hi
      rw [List.getElem?_append_right hi] at h
      rw [List.getElem?_map] at h
      obtain ⟨js, hjs, hmk⟩ := Option.map_eq_some'.mp h
      refine ⟨d, js,
        i - ((List.range d).flatMap fun j => (cOrderIndices ds).map (j :: ·)).length,
        hmk.symm, Nat.lt_succ_self d, hjs, ?_, ?_⟩
      · rw [length_cOrder_flatMap] at hi ⊢
        omega
      · have hlt := (List.getElem?_eq_some_iff.mp hjs).1
        exact hlt

/-- The linear enumeration index of a multi-index in C order is its
row-major rank. -/
theorem cOrder_rank (shape : List Nat) :
    ∀ (i : Nat) (idx : List Nat), (cOrderIndices shape)[i]? = some idx →
      rowMajorRank shape idx = i := by
  induction shape with
  | nil =>
    intro i idx h
    cases i with
    | zero =>
      simp [cOrderIndices] at h
      subst h
      rfl
    | succ i => simp [cOrderIndices] at h
  | cons d ds ih =>
    intro i idx h
    obtain ⟨j, js, r, h1, _h2, h3, h4, _h5⟩ := cOrder_cons_get ds d i idx h
    subst h1
    subst h4
    rw [rowMajorRank, ih r js h3, length_cOrderIndices]

theorem assignPages_get (l : List (List Nat)) :
    ∀ (k i : Nat), (assignPages k l)[i]? =
      (l[i]?).map fun idx =>
        (idx, (⟨idx.headD 0, (k + i) / (idx.headD 0 + 1)⟩ : DelayedNode)) := by
  induction l with
  | nil => intro k i; simp [assignPages]
  | cons idx rest ih =>
    intro k i
    cases i with
    | zero => simp [assignPages]
    | succ i =>
      simp only [assignPages, List.getElem?_cons_succ, ih (k + 1) i]
      simp only [show k + 1 + i = k + (i + 1) from by omega]

theorem mkLazyPlan_cells (t : TiffModel) (S : Nat) (plan : LazyPlan)
    (hp : mkLazyPlan t S = .ok plan) :
    plan.cells = assignPages 0 (cOrderIndices plan.gridShape) := by
  unfold mkLazyPlan at hp
  split at hp
  · exact Except.noConfusion hp
  split at hp
  · exact Except.noConfusion hp
  split at hp
  · exact Except.noConfusion hp
  split at hp
  · exact Except.noConfusion hp
  split at hp
  · exact Except.noConfusion hp
  cases hp
  rfl

/-- C7: in the lazy path, every placeholder-grid cell's deferred node is
bound to scene `np_index[0]` and to the page index obtained by
integer-dividing the cell's linear enumeration index by
`scene_index + 1`; the linear enumeration index of a position equals its
row-major rank in the grid. -/
theorem c7_page_binding (t : TiffModel) (S : Nat) (plan : LazyPlan)
    (hp : mkLazyPlan t S = .ok plan) :
    ∀ (i : Nat) (idx : List Nat) (node : DelayedNode),
      plan.cells[i]? = some (idx, node) →
      node.scene = idx.headD 0 ∧
      i = rowMajorRank plan.gridShape idx ∧
      node.page = rowMajorRank plan.gridShape idx / (idx.headD 0 + 1) := by
  intro i idx node h
  rw [mkLazyPlan_cells t S plan hp, assignPages_get (cOrderIndices plan.gridShape) 0 i]
    at h
  obtain ⟨idx0, hidx0, heq⟩ := Option.map_eq_some'.mp h
  have hrank := cOrder_rank plan.gridShape i idx0 hidx0
  injection heq with h1 h2
  subst h1
  subst h2
  refine ⟨rfl, hrank.symm, ?_⟩
  simp [hrank]

/-- Witness for C7: in the 2-scene grid (2, 3, 1, 1), the cell at position
(1, 1, 0, 0) has enumeration index 4 and is bound to scene 1, page
4 / 2 = 2. -/
theorem c7_page_binding_w :
    (⟨1, 2⟩ : DelayedNode).scene = ([1, 1, 0, 0] : List Nat).headD 0 ∧
    (4 : Nat) = rowMajorRank planTwo344.gridShape [1, 1, 0, 0] ∧
    (⟨1, 2⟩ : DelayedNode).page =
      rowMajorRank planTwo344.gridShape [1, 1, 0, 0] /
        (([1, 1, 0, 0] : List Nat).headD 0 + 1) :=
  c7_page_binding tiffTwo344 0 planTwo344 (by rfl) 4 [1, 1, 0, 0] ⟨1, 2⟩ (by rfl)

/-- C8: for every single-scene, single-page 2D container of shape
(100, 100), forcing the lazy array yields shape (100, 100) — the leading
scene axis is indexed out — with exactly the data `read_immediate`
returns. -/
theorem c8_single_scene_lazy_equals_immediate (flat : List Int)
    (h : flat.length = 10000) :
    readDelayedForced (mkSingleScene flat) 0 = .ok ⟨[100, 100], flat⟩ ∧
    readImmediate (mkSingleScene flat) 0 = .ok ⟨[100, 100], flat⟩ := by
  constructor
  · have hred : readDelayedForced (mkSingleScene flat) 0 =
        .ok ⟨[100, 100], (flat ++ []).take 10000⟩ := rfl
    have htake : (flat ++ []).take 10000 = flat := by
      rw [List.append_nil, ← h]
      exact List.take_length flat
    rw [hred, htake]
  · have hred2 : readImmediate (mkSingleScene flat) 0 =
        .ok ⟨[100, 100], flat ++ []⟩ := rfl
    rw [hred2, List.append_nil]

/-- Witness for C8: a concrete all-sevens 100 x 100 container. -/
theorem c8_single_scene_lazy_equals_immediate_w :
    readDelayedForced (mkSingleScene (List.replicate 10000 7)) 0 =
      .ok ⟨[100, 100], List.replicate 10000 7⟩ ∧
    readImmediate (mkSingleScene (List.replicate 10000 7)) 0 =
      .ok ⟨[100, 100], List.replicate 10000 7⟩ :=
  c8_single_scene_lazy_equals_immediate (List.replicate 10000 7)
    (List.length_replicate 10000 7)

/-- C4 (amended): for every container with zero scenes, and for every
container all of whose scenes hold zero pages, the lazy-array assembly
fails — but with a plain `IndexError` from the `scenes[0]` / `pages[0]`
accesses (lines 128 and 134), not with a dedicated empty-container
failure. -/
theorem c4_empty_container_index_error (t : TiffModel) (S : Nat)
    (h : t.series = [] ∨ ∀ s ∈ t.series, s.pages = []) :
    readDelayedForced t S = .error .indexError := by
  rcases h with h | h
  · simp [readDelayedForced, mkLazyPlan, h, pyGet]
  · cases hs : t.series with
    | nil => simp [readDelayedForced, mkLazyPlan, hs, pyGet]
    | cons s0 rest =>
      have h0 : pyGet t.series 0 = .ok s0 := by simp [pyGet, hs]
      have hcons : sceneShapeIsConsistent t =
          .ok (t.series.all fun s => decide (s.shape = s0.shape)) := by
        simp [sceneShapeIsConsistent, h0]
      have hp0 : s0.pages = [] := h s0 (by rw [hs]; exact List.mem_cons_self s0 rest)
      by_cases hb : (t.series.all fun s => decide (s.shape = s0.shape)) = true
      · simp only [readDelayedForced, mkLazyPlan, h0, hcons, hb]
        simp [pyGet, hs, hp0]
      · have hb' : (t.series.all fun s => decide (s.shape = s0.shape)) = false :=
          Bool.eq_false_iff.mpr hb
        simp only [readDelayedForced, mkLazyPlan, h0, hcons, hb']
        cases hg : t.series[S]? with
        | none => simp [pyGet, hg]
        | some sS =>
          have hmem : sS ∈ t.series := by
            have h2 : t.series.get? S = some sS := by simpa using hg
            exact List.get?_mem h2
          have hpS : sS.pages = [] := h sS hmem
          simp [pyGet, hg, hpS]

/-- Witness for C4 (amended): the zero-scene container. -/
theorem c4_empty_container_index_error_w :
    readDelayedForced (⟨[]⟩ : TiffModel) 0 = .error .indexError :=
  c4_empty_container_index_error ⟨[]⟩ 0 (Or.inl rfl)

/-- Counterexample for C4 as stated: the zero-scene container makes the
lazy-array assembly fail with `IndexError`, which is not the dedicated
`EmptyContainerError` the claim promises (no code path produces it). -/
theorem c4_counterexample :
    readDelayedForced (⟨[]⟩ : TiffModel) 0 = .error .indexError ∧
    PyErr.indexError ≠ PyErr.emptyContainer :=
  ⟨rfl, by decide⟩

/-- C3: the dimension guesser is unreachable as written.  For every
container whose selected scene declares at least one label outside the
recognized alphabet, property resolution enters the fallback branch and
`_guess_tiff_dims` raises `NameError` for the unbound name `self`
(line 189) instead of returning a substituted label string. -/
theorem c3_unrecognized_dim_raises_nameerror (t : TiffModel) (S : Nat) (sc : SceneModel)
    (hS : t.series[S]? = some sc)
    (hpg : t.pages ≠ [])
    (hbad : sc.pagesAxes.all (fun d => decide (d ∈ defaultOrder)) = false) :
    getTiffProperties t S = .error (.nameError "self") := by
  have hget : pyGet t.series S = .ok sc := by simp [pyGet, hS]
  obtain ⟨p0, ps, hps⟩ : ∃ p0 ps, t.pages = p0 :: ps := by
    cases hpp : t.pages with
    | nil => exact absurd hpp hpg
    | cons a l => exact ⟨a, l, rfl⟩
  have hget0 : pyGet t.pages 0 = .ok p0 := by simp [pyGet, hps]
  rw [getTiffProperties]
  simp [hget, hget0, hbad, guessTiffDims]

/-- Witness for C3: a scene declaring axes ZQX (Q unrecognized). -/
theorem c3_unrecognized_dim_raises_nameerror_w :
    getTiffProperties tiffQ1 0 = .error (.nameError "self") :=
  c3_unrecognized_dim_raises_nameerror tiffQ1 0 sceneQ (by rfl) (by decide) (by rfl)

/-- C6 (amended, restricted to containers whose declared per-scene labels
are all recognized): with more than one scene and consistent scene shapes,
the resolved dims are the scene label prepended to the single-scene labels
and the shape is the scene count prepended to the single-scene shape;
otherwise (single scene or inconsistent shapes) the resolved dims and
shape describe a single scene only. -/
theorem c6_scene_axis_resolution (t : TiffModel) (S : Nat) (sc : SceneModel)
    (p0 : PageModel)
    (hS : t.series[S]? = some sc)
    (hp0 : t.pages[0]? = some p0)
    (hrec : sc.pagesAxes.all (fun d => decide (d ∈ defaultOrder)) = true) :
    ((1 < t.series.length ∧ sceneShapeIsConsistent t = .ok true) →
      getTiffProperties t S =
        .ok ⟨sceneDim :: sc.pagesAxes, t.series.length :: sc.pagesShape, p0.dtype⟩) ∧
    (¬ (1 < t.series.length ∧ sceneShapeIsConsistent t = .ok true) →
      getTiffProperties t S = .ok ⟨sc.pagesAxes, sc.pagesShape, p0.dtype⟩) := by
  have hget : pyGet t.series S = .ok sc := by simp [pyGet, hS]
  have hget0 : pyGet t.pages 0 = .ok p0 := by simp [pyGet, hp0]
  constructor
  · rintro ⟨hlen, hcons⟩
    simp [getTiffProperties, hget, hget0, hrec, hlen, hcons]
  · intro hneg
    by_cases hlen : 1 < t.series.length
    · have hne : t.series ≠ [] := by
        intro hnil
        rw [hnil] at hS
        simp at hS
      obtain ⟨s0, rest, hs⟩ : ∃ s0 rest, t.series = s0 :: rest := by
        cases hsl : t.series with
        | nil => exact absurd hsl hne
        | cons a l => exact ⟨a, l, rfl⟩
      have hcons : sceneShapeIsConsistent t =
          .ok (t.series.all fun s => decide (s.shape = s0.shape)) := by
        simp [sceneShapeIsConsistent, pyGet, hs]
      have hbf : (t.series.all fun s => decide (s.shape = s0.shape)) = false := by
        cases hbv : (t.series.all fun s => decide (s.shape = s0.shape))
        · rfl
        · exact absurd ⟨hlen, by rw [hcons, hbv]⟩ hneg
      simp [getTiffProperties, hget, hget0, hrec, hlen, hcons, hbf]
    · simp [getTiffProperties, hget, hget0, hrec, hlen]

/-- Witness for C6 (amended): three consistent scenes of shape
(5, 100, 100) with labels ZYX give dims SZYX and shape (3, 5, 100, 100). -/
theorem c6_scene_axis_resolution_w :
    getTiffProperties tiffThree5z 0 =
      .ok ⟨['S', 'Z', 'Y', 'X'], [3, 5, 100, 100], "u2"⟩ :=
  (c6_scene_axis_resolution tiffThree5z 0 scene5z ⟨⟨[100, 100], []⟩, "u2"⟩ rfl rfl
    rfl).1 ⟨by decide, rfl⟩

/-- Counterexample for C6 as stated: a two-scene consistent container whose
declared labels contain an unrecognized symbol makes property resolution
raise `NameError` (the C3 defect) instead of returning the scene-prepended
dims the claim promises for every multi-scene consistent container. -/
theorem c6_counterexample :
    getTiffProperties tiffQ2 0 = .error (.nameError "self") ∧
    (Except.error (PyErr.nameError "self") : Except PyErr TiffProps) ≠
      .ok ⟨sceneDim :: sceneQ.pagesAxes, 2 :: sceneQ.pagesShape, "u2"⟩ := by
  exact ⟨rfl, by simp⟩

theorem runPropOps_cached (t : TiffModel) (S : Nat) (p : TiffProps) :
    ∀ ops, runPropOps t S ⟨some p.dims, some p.shape, some p.dtype⟩ ops =
      .ok (ops.map (valOf p), ⟨some p.dims, some p.shape, some p.dtype⟩, 0) := by
  intro ops
  induction ops with
  | nil => rfl
  | cons op ops ih =>
    cases op <;> simp [runPropOps, runPropOp, valOf, ih]

/-- C9: on one reader instance over an unchanged container, any sequence of
`dims` / `shape` / `dtype` calls returns the same resolved value for each
property every time, and structural introspection runs exactly once — the
first call fills all three cached fields and the cache is never
invalidated (zero introspections only for the empty call sequence). -/
theorem c9_property_caching (t : TiffModel) (S : Nat) (p : TiffProps)
    (hp : getTiffProperties t S = .ok p) :
    ∀ ops : List PropOp,
      runPropOps t S emptyCache ops =
        .ok (ops.map (valOf p),
          (if ops.isEmpty then emptyCache
           else ⟨some p.dims, some p.shape, some p.dtype⟩),
          if ops.isEmpty then 0 else 1) := by
  intro ops
  cases ops with
  | nil => rfl
  | cons op ops =>
    cases op <;>
      simp [runPropOps, runPropOp, emptyCache, hp, valOf, runPropOps_cached t S p ops]

/-- Witness for C9: four getter calls on a concrete container perform one
introspection and return the resolved record values each time. -/
theorem c9_property_caching_w :
    runPropOps tiffZyx1 0 emptyCache
        [PropOp.dims, PropOp.dtype, PropOp.shape, PropOp.dims] =
      .ok (([PropOp.dims, PropOp.dtype, PropOp.shape, PropOp.dims].map
          (valOf ⟨['Z', 'Y', 'X'], [5, 4, 4], "u2"⟩)),
        (if ([PropOp.dims, PropOp.dtype, PropOp.shape, PropOp.dims] : List PropOp).isEmpty
         then emptyCache else ⟨some ['Z', 'Y', 'X'], some [5, 4, 4], some "u2"⟩),
        if ([PropOp.dims, PropOp.dtype, PropOp.shape, PropOp.dims] : List PropOp).isEmpty
        then 0 else 1) :=
  c9_property_caching tiffZyx1 0 ⟨['Z', 'Y', 'X'], [5, 4, 4], "u2"⟩ rfl
    [PropOp.dims, PropOp.dtype, PropOp.shape, PropOp.dims]
